import Mathlib

/-!
Shallow embedding of the leaderboard HTTP service (`server.js` of the
AR-Experience repository): an Express app over a single SQLite table
`leaderboard_entries (id, game, name, score, created_at)`.

The datastore is modelled as an explicit record `DB` holding the table rows,
the next AUTOINCREMENT id, and a monotone clock stamping `created_at` on each
insert (CURRENT_TIMESTAMP, idealised as strictly increasing ticks so that the
`ORDER BY score DESC, created_at ASC` ranking is deterministic).

JavaScript-level conversions used by the routes (`Number(...)`,
`parseInt(..., 10)`, `String.prototype.trim`, `.slice(0, 12)`, the `||`
defaulting idiom) are embedded as explicit functions on `Option String` /
`JValue` values; `Number(...)` is modelled on decimal numerals (no exponent or
hex forms, which no route input in the claims exercises).
-/

/-- A JSON body value as the routes can receive it (`req.body?.score`):
a finite number, a string, `null`, `undefined` (absent), or a boolean.
Non-finite numbers (`NaN`, `Infinity`) are folded into the `none` result of
`toNumber` below, which is extensionally accurate for `parseScore` since
`Number.isFinite` rejects them. -/
inductive JValue where
  | num (q : ℚ)
  | str (s : String)
  | null
  | undef
  | bool (b : Bool)
deriving Repr, DecidableEq

/-- Value of a list of decimal digit characters, most significant first. -/
def digitsVal (cs : List Char) : Nat :=
  cs.foldl (fun a c => a * 10 + (c.toNat - 48)) 0

/-- JavaScript `String.prototype.trim`: strip whitespace at both ends. -/
def jsTrim (s : String) : String :=
  ⟨((s.data.dropWhile Char.isWhitespace).reverse.dropWhile Char.isWhitespace).reverse⟩

/-- JavaScript `String.prototype.slice(0, n)` on a string (first `n` characters). -/
def sliceTo (s : String) (n : Nat) : String :=
  ⟨s.data.take n⟩

/-- JavaScript `parseInt(x, 10)`: skip leading whitespace, optional sign, then
the longest digit run; `NaN` (here `none`) when no digit follows. The argument
is `none` when the query parameter is absent (`parseInt(undefined, 10)` is
`NaN`). -/
def parseIntJS : Option String → Option Int
  | none => none
  | some s =>
    let cs := s.data.dropWhile Char.isWhitespace
    let core : List Char → Int → Option Int := fun ds sign =>
      let digs := ds.takeWhile Char.isDigit
      if digs.isEmpty then none else some (sign * (digitsVal digs : Int))
    match cs with
    | '-' :: rest => core rest (-1)
    | '+' :: rest => core rest 1
    | _ => core cs 1

/-- JavaScript `Number(s)` for a string `s`, on decimal numerals:
trim; empty string gives `0`; otherwise optional sign, integer digits,
optional fraction; anything else (such as "abc") is `NaN`, here `none`. -/
def strToNumber (s : String) : Option ℚ :=
  let cs := (jsTrim s).data
  if cs.isEmpty then some 0
  else
    let signed : ℚ × List Char :=
      match cs with
      | '-' :: r => (-1, r)
      | '+' :: r => (1, r)
      | _ => (1, cs)
    let sign := signed.1
    let rest := signed.2
    let intDigs := rest.takeWhile Char.isDigit
    let afterInt := rest.dropWhile Char.isDigit
    match afterInt with
    | [] => if intDigs.isEmpty then none else some (sign * (digitsVal intDigs : ℚ))
    | '.' :: frac =>
      let fracDigs := frac.takeWhile Char.isDigit
      if (frac.dropWhile Char.isDigit).isEmpty ∧ ¬(intDigs.isEmpty ∧ fracDigs.isEmpty) then
        some (sign * ((digitsVal intDigs : ℚ) +
          (digitsVal fracDigs : ℚ) / ((10 : ℚ) ^ fracDigs.length)))
      else none
    | _ => none

/-- JavaScript `Number(x)` on a body value; `none` stands for a non-finite
result (`NaN` or `±Infinity`), exactly what `Number.isFinite` rejects. -/
def toNumber : JValue → Option ℚ
  | .num q => some q
  | .str s => strToNumber s
  | .null => some 0
  | .undef => none
  | .bool b => some (if b then 1 else 0)

/-- `sanitizeName` from server.js:
`if (!name) return 'Player'; return String(name).trim().slice(0, 12) || 'Player';`
restricted to the string-or-absent inputs the API documents. -/
def sanitizeName : Option String → String
  | none => "Player"
  | some s =>
    if s = "" then "Player"
    else
      let t := sliceTo (jsTrim s) 12
      if t = "" then "Player" else t

/-- `parseScore` from server.js:
`const parsed = Number(score); if (!Number.isFinite(parsed) || parsed < 0) return null;
return Math.floor(parsed);` (`Math.floor` is the floor; for a non-negative
value it is also truncation toward zero). -/
def parseScore (v : JValue) : Option Int :=
  match toNumber v with
  | none => none
  | some q => if q < 0 then none else some ⌊q⌋

/-- One row of the `leaderboard_entries` table. -/
structure Entry where
  id : Nat
  game : String
  name : String
  score : Int
  created_at : Nat
deriving Repr, DecidableEq

/-- The datastore: the table rows in insertion order, the next AUTOINCREMENT
id (starts at 1), and the clock used to stamp `created_at`. -/
structure DB where
  table : List Entry
  nextId : Nat
  clock : Nat
deriving Repr, DecidableEq

/-- The freshly created database. -/
def emptyDB : DB := ⟨[], 1, 0⟩

/-- `const allowedGames = new Set(['fruit', 'flappy', 'potato']);`
(`Array.from` of the set preserves this insertion order). -/
def allowedGames : List String := ["fruit", "flappy", "potato"]

/-- The rows of one game, in table order (`WHERE game = ?`). -/
def entriesFor (db : DB) (game : String) : List Entry :=
  db.table.filter (fun e => decide (e.game = game))

/-- The SQL ranking key: `ORDER BY score DESC, created_at ASC`. -/
def rankLE (a b : Entry) : Prop :=
  b.score < a.score ∨ (a.score = b.score ∧ a.created_at ≤ b.created_at)

instance : DecidableRel rankLE := fun a b => by
  unfold rankLE; infer_instance

instance : IsTotal Entry rankLE :=
  ⟨fun a b => by
    unfold rankLE
    rcases lt_trichotomy a.score b.score with h | h | h
    · exact Or.inr (Or.inl h)
    · rcases Nat.le_total a.created_at b.created_at with hc | hc
      · exact Or.inl (Or.inr ⟨h, hc⟩)
      · exact Or.inr (Or.inr ⟨h.symm, hc⟩)
    · exact Or.inl (Or.inl h)⟩

instance : IsTrans Entry rankLE :=
  ⟨fun a b c hab hbc => by
    unfold rankLE at *
    rcases hab with h1 | ⟨h1, h1c⟩
    · rcases hbc with h2 | ⟨h2, _⟩
      · exact Or.inl (h2.trans h1)
      · exact Or.inl (h2 ▸ h1)
    · rcases hbc with h2 | ⟨h2, h2c⟩
      · exact Or.inl (by rw [h1]; exact h2)
      · exact Or.inr ⟨h1.trans h2, h1c.trans h2c⟩⟩

/-- Sorting a row list by the ranking key. -/
def rankSort (l : List Entry) : List Entry := l.insertionSort rankLE

/-- The row shape returned to clients: `SELECT name, score, created_at`. -/
structure EntryView where
  name : String
  score : Int
  created_at : Nat
deriving Repr, DecidableEq

/-- Projection of a table row to the selected columns. -/
def toView (e : Entry) : EntryView := ⟨e.name, e.score, e.created_at⟩

/-- `getLeaderboard(game, limit, offset)` from server.js: the ranked page
`ORDER BY score DESC, created_at ASC LIMIT ? OFFSET ?` of the game's rows,
projected to `name, score, created_at`. -/
def getLeaderboard (db : DB) (game : String) (limit offset : Nat) : List EntryView :=
  (((rankSort (entriesFor db game)).drop offset).take limit).map toView

/-- `getCount(game)` from server.js: `SELECT COUNT(*) ... WHERE game = ?`. -/
def getCount (db : DB) (game : String) : Nat :=
  (entriesFor db game).length

/-- `insertScore(game, name, score)` from server.js: one INSERT; the store
assigns the id and the `created_at` stamp. Returns the created row and the
updated store. -/
def insertScore (db : DB) (game name : String) (score : Int) : Entry × DB :=
  let e : Entry := ⟨db.nextId, game, name, score, db.clock⟩
  (e, ⟨db.table ++ [e], db.nextId + 1, db.clock + 1⟩)

/-- A page object `{ entries, total, limit, offset }`. -/
structure Page where
  entries : List EntryView
  total : Nat
  limit : Nat
  offset : Nat
deriving Repr, DecidableEq

/-- The JavaScript `x || d` defaulting idiom on a `parseInt` result: the
default `d` is used when the result is `NaN` (`none`) or `0` (both falsy). -/
def jsOr (p : Option Int) (d : Int) : Int :=
  match p with
  | some n => if n = 0 then d else n
  | none => d

/-- Effective limit of a read route:
`Math.min(Math.max(parseInt(req.query.limit, 10) || 5, 1), 20)`. -/
def effLimit (q : Option String) : Nat :=
  (min (max (jsOr (parseIntJS q) 5) 1) 20).toNat

/-- Effective offset of a read route:
`Math.max(parseInt(req.query.offset, 10) || 0, 0)`. -/
def effOffset (q : Option String) : Nat :=
  (max (jsOr (parseIntJS q) 0) 0).toNat

/-- Outcome of `GET /api/leaderboards/:game`: 400 `Unknown game`, or 200 with
`{ game, entries, total, limit, offset }`. -/
inductive GetResult where
  | unknownGame
  | ok (game : String) (page : Page)
deriving Repr, DecidableEq

/-- HTTP status of a single-game read outcome. -/
def getStatus : GetResult → Nat
  | .unknownGame => 400
  | .ok _ _ => 200

/-- `GET /api/leaderboards/:game` (error-free datastore executions). -/
def getGameRoute (db : DB) (game : String) (limitQ offsetQ : Option String) : GetResult :=
  if game ∈ allowedGames then
    .ok game ⟨getLeaderboard db game (effLimit limitQ) (effOffset offsetQ),
      getCount db game, effLimit limitQ, effOffset offsetQ⟩
  else .unknownGame

/-- Response of `GET /api/leaderboards`: one page object per allowed game. -/
structure AllPages where
  fruit : Page
  flappy : Page
  potato : Page
deriving Repr, DecidableEq

/-- `GET /api/leaderboards` (error-free datastore executions): the same
limit/offset computation, applied uniformly to every allowed game. -/
def getAllRoute (db : DB) (limitQ offsetQ : Option String) : AllPages :=
  let l := effLimit limitQ
  let o := effOffset offsetQ
  ⟨⟨getLeaderboard db "fruit" l o, getCount db "fruit", l, o⟩,
   ⟨getLeaderboard db "flappy" l o, getCount db "flappy", l, o⟩,
   ⟨getLeaderboard db "potato" l o, getCount db "potato", l, o⟩⟩

/-- Outcome of `POST /api/leaderboards/:game`: 400 `Unknown game`,
400 `Invalid score`, or 201 with `{ entry, entries, total, limit, offset }`. -/
inductive PostResult where
  | unknownGame
  | invalidScore
  | created (entry : Entry) (page : Page)
deriving Repr, DecidableEq

/-- HTTP status of a submit outcome. -/
def postStatus : PostResult → Nat
  | .unknownGame => 400
  | .invalidScore => 400
  | .created _ _ => 201

/-- `POST /api/leaderboards/:game` (error-free datastore executions):
validate the game, sanitize the name, parse the score; on success insert one
row and respond 201 with the created entry, the fresh first page at the fixed
page size 5 and offset 0, and the new total. -/
def postRoute (db : DB) (game : String) (name : Option String) (score : JValue) :
    PostResult × DB :=
  if game ∈ allowedGames then
    match parseScore score with
    | none => (.invalidScore, db)
    | some n =>
      let r := insertScore db game (sanitizeName name) n
      (.created r.1 ⟨getLeaderboard r.2 game 5 0, getCount r.2 game, 5, 0⟩, r.2)
  else (.unknownGame, db)

/-- Outcome of `POST /api/admin/reset/:game`: 400 `Unknown game`,
401 `Unauthorized`, or 200 with `{ ok: true, cleared }`. -/
inductive ResetResult where
  | unknownGame
  | unauthorized
  | ok (cleared : List String)
deriving Repr, DecidableEq

/-- HTTP status of a reset outcome. -/
def resetStatus : ResetResult → Nat
  | .unknownGame => 400
  | .unauthorized => 401
  | .ok _ => 200

/-- `const games = game === 'all' ? Array.from(allowedGames) : [game];` -/
def resetTargets (game : String) : List String :=
  if game = "all" then allowedGames else [game]

/-- `DELETE FROM leaderboard_entries WHERE game = ?` for each listed game. -/
def deleteGames (db : DB) (games : List String) : DB :=
  { db with table := db.table.filter (fun e => !(decide (e.game ∈ games))) }

/-- `POST /api/admin/reset/:game` (error-free datastore executions):
unknown-game check, then the admin-key check (skipped when no key is
configured), then one delete per targeted game. -/
def resetRoute (adminKey : String) (db : DB) (game : String) (key : Option String) :
    ResetResult × DB :=
  if game ∈ allowedGames ∨ game = "all" then
    if adminKey ≠ "" ∧ key ≠ some adminKey then (.unauthorized, db)
    else (.ok (resetTargets game), deleteGames db (resetTargets game))
  else (.unknownGame, db)

/-- Outcome of the reset route when per-game deletes may fail. -/
inductive ResetFResult where
  | unknownGame
  | unauthorized
  | serverError
  | ok (cleared : List String)
deriving Repr, DecidableEq

/-- Deletes with a failure oracle: a game targeted by a delete that fails
(`f g = true`) keeps its rows — one SQL DELETE is atomic — while the other
targeted games are cleared. -/
def deleteGamesF (db : DB) (games : List String) (f : String → Bool) : DB :=
  { db with table := db.table.filter (fun e => !(decide (e.game ∈ games) && !(f e.game))) }

/-- `POST /api/admin/reset/:game` with a failure oracle `f` telling which
per-game DELETE statements fail. The route runs all deletes via
`Promise.all`: a rejection makes the response 500, but the deletes that
succeeded have already committed. -/
def resetRouteF (adminKey : String) (f : String → Bool) (db : DB) (game : String)
    (key : Option String) : ResetFResult × DB :=
  if game ∈ allowedGames ∨ game = "all" then
    if adminKey ≠ "" ∧ key ≠ some adminKey then (.unauthorized, db)
    else if (resetTargets game).any f then
      (.serverError, deleteGamesF db (resetTargets game) f)
    else (.ok (resetTargets game), deleteGamesF db (resetTargets game) f)
  else (.unknownGame, db)

/-- A state-mutating request (read routes leave the store unchanged). -/
inductive Request where
  | post (game : String) (name : Option String) (score : JValue)
  | reset (game : String) (key : Option String)

/-- Effect of one request on the store. -/
def applyReq (adminKey : String) (db : DB) : Request → DB
  | .post g n s => (postRoute db g n s).2
  | .reset g k => (resetRoute adminKey db g k).2

/-- Stores reachable from the fresh database through the API. -/
inductive Reachable (adminKey : String) : DB → Prop
  | init : Reachable adminKey emptyDB
  | step {db : DB} (r : Request) :
      Reachable adminKey db → Reachable adminKey (applyReq adminKey db r)

/-- Fixture for the C1 ranking scenario: scores 50, 50, 30 submitted to
"fruit" in that order (names A, B, C) against the fresh store. -/
def dbC1 : DB :=
  (postRoute (postRoute (postRoute emptyDB "fruit" (some "A") (.num 50)).2
    "fruit" (some "B") (.num 50)).2 "fruit" (some "C") (.num 30)).2

/-- Fixture for the C8 scenario: one fruit row and one flappy row. -/
def dbC8 : DB := ⟨[⟨1, "fruit", "A", 1, 0⟩, ⟨2, "flappy", "B", 2, 1⟩], 3, 2⟩

/-- Failure oracle making exactly the flappy DELETE fail. -/
def failsOnFlappy (g : String) : Bool := g == "flappy"

/-- Fixture store with a single fruit row, for read-route witnesses. -/
def dbOneRow : DB := ⟨[⟨1, "fruit", "Ann", 5, 0⟩], 2, 1⟩

/-- The ranking relation on rows as returned to clients. -/
def viewRankLE (a b : EntryView) : Prop :=
  b.score < a.score ∨ (a.score = b.score ∧ a.created_at ≤ b.created_at)

lemma parseScore_eq_floor {v : JValue} {q : ℚ} (h : toNumber v = some q) (h0 : 0 ≤ q) :
    parseScore v = some ⌊q⌋ := by
  unfold parseScore
  rw [h]
  exact if_neg (not_lt.mpr h0)

lemma parseScore_isSome_iff (v : JValue) :
    (parseScore v).isSome ↔ ∃ q, toNumber v = some q ∧ 0 ≤ q := by
  constructor
  · intro hs
    unfold parseScore at hs
    cases h : toNumber v with
    | none => rw [h] at hs; simp at hs
    | some q =>
      rw [h] at hs
      by_cases hq : q < 0
      · simp [hq] at hs
      · exact ⟨q, rfl, not_lt.mp hq⟩
  · rintro ⟨q, hq, hq0⟩
    rw [parseScore_eq_floor hq hq0]
    rfl

lemma parseScore_nonneg {v : JValue} {n : Int} (h : parseScore v = some n) : 0 ≤ n := by
  unfold parseScore at h
  cases hq : toNumber v with
  | none => rw [hq] at h; exact absurd h (by simp)
  | some q =>
    rw [hq] at h
    by_cases h0 : q < 0
    · simp [h0] at h
    · simp [h0] at h
      obtain rfl : ⌊q⌋ = n := h
      exact Int.floor_nonneg.mpr (not_lt.mp h0)

lemma postRoute_state {db : DB} {g : String} {n : Option String} {v : JValue} {sc : Int}
    (hg : g ∈ allowedGames) (hv : parseScore v = some sc) :
    (postRoute db g n v).2 =
      ⟨db.table ++ [⟨db.nextId, g, sanitizeName n, sc, db.clock⟩],
        db.nextId + 1, db.clock + 1⟩ := by
  unfold postRoute
  rw [if_pos hg, hv]
  rfl

lemma postRoute_result {db : DB} {g : String} {n : Option String} {v : JValue} {sc : Int}
    (hg : g ∈ allowedGames) (hv : parseScore v = some sc) :
    postRoute db g n v =
      (.created (insertScore db g (sanitizeName n) sc).1
        ⟨getLeaderboard (insertScore db g (sanitizeName n) sc).2 g 5 0,
          getCount (insertScore db g (sanitizeName n) sc).2 g, 5, 0⟩,
        (insertScore db g (sanitizeName n) sc).2) := by
  unfold postRoute
  rw [if_pos hg, hv]

lemma postRoute_invalid {db : DB} {g : String} {n : Option String} {v : JValue}
    (hg : g ∈ allowedGames) (hv : parseScore v = none) :
    postRoute db g n v = (.invalidScore, db) := by
  unfold postRoute
  rw [if_pos hg, hv]

lemma postRoute_state_of_none {db : DB} {g : String} {n : Option String} {v : JValue}
    (hv : parseScore v = none) : (postRoute db g n v).2 = db := by
  unfold postRoute
  by_cases hg : g ∈ allowedGames
  · rw [if_pos hg, hv]
  · rw [if_neg hg]

lemma filter_game_of_keep {l : List Entry} {p : Entry → Bool} {g : String}
    (h : ∀ e : Entry, e.game = g → p e = true) :
    (l.filter p).filter (fun e => decide (e.game = g)) =
      l.filter (fun e => decide (e.game = g)) := by
  induction l with
  | nil => rfl
  | cons e t ih =>
    by_cases he : e.game = g
    · have hp := h e he
      simp [List.filter_cons, hp, he, ih]
    · cases hp : p e <;> simp [List.filter_cons, hp, he, ih]

lemma filter_game_of_drop {l : List Entry} {p : Entry → Bool} {g : String}
    (h : ∀ e : Entry, e.game = g → p e = false) :
    (l.filter p).filter (fun e => decide (e.game = g)) = [] := by
  induction l with
  | nil => rfl
  | cons e t ih =>
    by_cases he : e.game = g
    · have hp := h e he
      simp [List.filter_cons, hp, he, ih]
    · cases hp : p e <;> simp [List.filter_cons, hp, he, ih]

lemma entriesFor_deleteGamesF (db : DB) (gs : List String) (f : String → Bool) (g : String) :
    entriesFor (deleteGamesF db gs f) g =
      if g ∈ gs ∧ f g = false then [] else entriesFor db g := by
  unfold entriesFor deleteGamesF
  by_cases hc : g ∈ gs ∧ f g = false
  · rw [if_pos hc]
    refine filter_game_of_drop ?_
    intro e he
    simp only [he]
    simp [hc.1, hc.2]
  · rw [if_neg hc]
    refine filter_game_of_keep ?_
    intro e he
    simp only [he]
    by_cases h1 : g ∈ gs
    · have h2 : f g = true := by
        cases hf : f g
        · exact absurd ⟨h1, hf⟩ hc
        · rfl
      simp [h1, h2]
    · simp [h1]

lemma entriesFor_deleteGames (db : DB) (gs : List String) (g : String) :
    entriesFor (deleteGames db gs) g = if g ∈ gs then [] else entriesFor db g := by
  unfold entriesFor deleteGames
  by_cases hc : g ∈ gs
  · rw [if_pos hc]
    refine filter_game_of_drop ?_
    intro e he
    simp only [he]
    simp [hc]
  · rw [if_neg hc]
    refine filter_game_of_keep ?_
    intro e he
    simp only [he]
    simp [hc]

lemma getLeaderboard_eq_nil {db : DB} {g : String} (h : entriesFor db g = [])
    (l o : Nat) : getLeaderboard db g l o = [] := by
  unfold getLeaderboard rankSort
  rw [h]
  simp

lemma getCount_eq_zero {db : DB} {g : String} (h : entriesFor db g = []) :
    getCount db g = 0 := by
  unfold getCount
  rw [h]
  rfl

lemma getLeaderboard_sorted (db : DB) (g : String) (l o : Nat) :
    (getLeaderboard db g l o).Pairwise viewRankLE := by
  unfold getLeaderboard
  have hs : (rankSort (entriesFor db g)).Pairwise rankLE :=
    List.sorted_insertionSort rankLE _
  have hsub : List.Sublist (((rankSort (entriesFor db g)).drop o).take l)
      (rankSort (entriesFor db g)) :=
    (List.take_sublist _ _).trans (List.drop_sublist _ _)
  exact (hs.sublist hsub).map toView (fun a b hab => hab)

lemma toView_mem_getLeaderboard {db : DB} {g : String} {e : Entry}
    (he : e ∈ entriesFor db g) :
    toView e ∈ getLeaderboard db g (getCount db g) 0 := by
  unfold getLeaderboard getCount
  rw [List.drop_zero]
  have hlen : (rankSort (entriesFor db g)).length = (entriesFor db g).length :=
    (List.perm_insertionSort rankLE _).length_eq
  rw [List.take_of_length_le (le_of_eq hlen)]
  exact List.mem_map_of_mem toView ((List.mem_insertionSort rankLE).mpr he)

lemma mem_getLeaderboard {db : DB} {g : String} {l o : Nat} {v : EntryView}
    (h : v ∈ getLeaderboard db g l o) :
    ∃ e, e ∈ db.table ∧ e.game = g ∧ v = toView e := by
  unfold getLeaderboard at h
  obtain ⟨e, he, rfl⟩ := List.mem_map.mp h
  have h1 : e ∈ rankSort (entriesFor db g) :=
    ((List.take_sublist _ _).trans (List.drop_sublist _ _)).subset he
  have h2 : e ∈ entriesFor db g := (List.mem_insertionSort rankLE).mp h1
  have h3 := List.mem_filter.mp h2
  exact ⟨e, h3.1, of_decide_eq_true h3.2, rfl⟩

lemma entriesFor_insert_same (db : DB) (g nm : String) (sc : Int) :
    entriesFor ((insertScore db g nm sc).2) g =
      entriesFor db g ++ [(insertScore db g nm sc).1] := by
  unfold entriesFor insertScore
  simp [List.filter_append]

lemma effLimit_bounds (q : Option String) : 1 ≤ effLimit q ∧ effLimit q ≤ 20 := by
  unfold effLimit
  set b : Int := jsOr (parseIntJS q) 5 with hb
  have h1 : (1 : Int) ≤ min (max b 1) 20 := le_min (le_max_right _ _) (by norm_num)
  have h2 : min (max b 1) 20 ≤ 20 := min_le_right _ _
  omega

lemma resetRoute_table_subset (ak : String) (db : DB) (g : String) (k : Option String) :
    ((resetRoute ak db g k).2).table ⊆ db.table := by
  unfold resetRoute
  by_cases h1 : g ∈ allowedGames ∨ g = "all"
  · rw [if_pos h1]
    by_cases h2 : ak ≠ "" ∧ k ≠ some ak
    · rw [if_pos h2]
      exact fun x hx => hx
    · rw [if_neg h2]
      unfold deleteGames
      exact (List.filter_sublist _).subset
  · rw [if_neg h1]
    exact fun x hx => hx

lemma reachable_scores_nonneg {ak : String} {db : DB} (h : Reachable ak db) :
    ∀ e ∈ db.table, 0 ≤ e.score := by
  induction h with
  | init => intro e he; exact absurd he (List.not_mem_nil e)
  | step r hprev ih =>
    intro e he
    cases r with
    | post g n v =>
      by_cases hg : g ∈ allowedGames
      · cases hp : parseScore v with
        | none =>
          simp only [applyReq] at he
          rw [postRoute_state_of_none hp] at he
          exact ih e he
        | some sc =>
          simp only [applyReq] at he
          rw [@postRoute_state _ g n v sc hg hp] at he
          rcases List.mem_append.mp he with h1 | h1
          · exact ih e h1
          · obtain rfl := List.mem_singleton.mp h1
            exact parseScore_nonneg hp
      · simp only [applyReq, postRoute, if_neg hg] at he
        exact ih e he
    | reset g k =>
      simp only [applyReq] at he
      exact ih e (resetRoute_table_subset ak _ g k he)

lemma string_eq_empty_of_data {s : String} (h : s.data = []) : s = "" := by
  cases s with
  | mk d =>
    have hd : d = [] := h
    rw [hd]

lemma sliceTo_ne_empty {s : String} (h : s ≠ "") : sliceTo s 12 ≠ "" := by
  intro hc
  have hd : s.data.take 12 = [] := by
    have := congrArg String.data hc
    simpa [sliceTo] using this
  rcases List.take_eq_nil_iff.mp hd with h1 | h1
  · exact absurd h1 (by decide)
  · exact h (string_eq_empty_of_data h1)

/-- Claim C1: a leaderboard read returns entries ordered by score descending
with ties broken by `created_at` ascending; in particular, after submitting
scores 50, 50, 30 to a game in that order, a read returns the two 50s before
the 30, the earlier-submitted of the tied pair first. -/
theorem claimC1 :
    (∀ (db : DB) (g : String) (l o : Nat),
      (getLeaderboard db g l o).Pairwise viewRankLE) ∧
    getLeaderboard dbC1 "fruit" 5 0 =
      [⟨"A", 50, 0⟩, ⟨"B", 50, 1⟩, ⟨"C", 30, 2⟩] := by
  constructor
  · exact getLeaderboard_sorted
  · have h50 : parseScore (JValue.num 50) = some 50 := by
      norm_num [parseScore, toNumber]
    have h30 : parseScore (JValue.num 30) = some 30 := by
      norm_num [parseScore, toNumber]
    unfold dbC1
    rw [@postRoute_state emptyDB "fruit" (some "A") (JValue.num 50) 50 (by decide) h50]
    rw [@postRoute_state _ "fruit" (some "B") (JValue.num 50) 50 (by decide) h50]
    rw [@postRoute_state _ "fruit" (some "C") (JValue.num 30) 30 (by decide) h30]
    decide

/-- Claim C2: a submitted score is accepted exactly when it converts to a
finite, non-negative number, and the stored value is its floor (truncation of
the fractional part for non-negative values); score = -1 and score = "abc"
are rejected with 400 `Invalid score` and leave the store unchanged. -/
theorem claimC2 :
    (∀ v : JValue, (parseScore v).isSome ↔ ∃ q, toNumber v = some q ∧ 0 ≤ q) ∧
    (∀ (v : JValue) (q : ℚ), toNumber v = some q → 0 ≤ q →
      parseScore v = some ⌊q⌋) ∧
    (∀ (db : DB) (n : Option String),
      postRoute db "fruit" n (.num (-1)) = (.invalidScore, db) ∧
      postStatus (postRoute db "fruit" n (.num (-1))).1 = 400) ∧
    (∀ (db : DB) (n : Option String),
      postRoute db "fruit" n (.str "abc") = (.invalidScore, db) ∧
      postStatus (postRoute db "fruit" n (.str "abc")).1 = 400) := by
  have hm1 : parseScore (JValue.num (-1)) = none := by
    norm_num [parseScore, toNumber]
  have habc : parseScore (JValue.str "abc") = none := by decide
  refine ⟨parseScore_isSome_iff, fun v q h h0 => parseScore_eq_floor h h0, ?_, ?_⟩
  · intro db n
    have h := @postRoute_invalid db "fruit" n (JValue.num (-1)) (by decide) hm1
    exact ⟨h, by rw [h]; rfl⟩
  · intro db n
    have h := @postRoute_invalid db "fruit" n (JValue.str "abc") (by decide) habc
    exact ⟨h, by rw [h]; rfl⟩

/-- Witness for C2 applied at concrete inputs: a fractional non-negative
score is accepted floored, and score = -1 is rejected without a write. -/
theorem claimC2_witness :
    parseScore (JValue.num (5 / 2)) = some ⌊(5 / 2 : ℚ)⌋ ∧
    postRoute emptyDB "fruit" none (JValue.num (-1)) = (.invalidScore, emptyDB) :=
  ⟨claimC2.2.1 (JValue.num (5 / 2)) (5 / 2) rfl (by norm_num),
   (claimC2.2.2.1 emptyDB none).1⟩

/-- Claim C3 counterexample: the claim says a submission with a fractional
score is rejected before persistence with no entry inserted, but submitting
score 3.7 succeeds (201) and inserts one row, stored with the floored
score 3. -/
theorem claimC3_cex :
    (postRoute emptyDB "fruit" none (JValue.num (37 / 10))).2.table =
      [⟨1, "fruit", "Player", 3, 0⟩] ∧
    (postRoute emptyDB "fruit" none (JValue.num (37 / 10))).2 ≠ emptyDB ∧
    postStatus (postRoute emptyDB "fruit" none (JValue.num (37 / 10))).1 = 201 := by
  have h37 : parseScore (JValue.num (37 / 10)) = some 3 := by
    norm_num [parseScore, toNumber]
  have hs := @postRoute_state emptyDB "fruit" none (JValue.num (37 / 10)) 3 (by decide) h37
  have hr := @postRoute_result emptyDB "fruit" none (JValue.num (37 / 10)) 3 (by decide) h37
  refine ⟨?_, ?_, ?_⟩
  · rw [hs]; rfl
  · rw [hs]; decide
  · rw [hr]; rfl

/-- Claim C3 amended: every persisted entry's score is a non-negative
integer; submissions whose score does not parse to a finite non-negative
number insert nothing; a fractional non-negative score is not rejected but
floored before insertion. -/
theorem claimC3_amended :
    (∀ (ak : String) (db : DB), Reachable ak db → ∀ e ∈ db.table, 0 ≤ e.score) ∧
    (∀ (db : DB) (g : String) (n : Option String) (v : JValue),
      parseScore v = none → (postRoute db g n v).2 = db) ∧
    (∀ (v : JValue) (q : ℚ), toNumber v = some q → 0 ≤ q →
      parseScore v = some ⌊q⌋) :=
  ⟨fun _ _ h => reachable_scores_nonneg h,
   fun _ _ _ _ hv => postRoute_state_of_none hv,
   fun _ _ h h0 => parseScore_eq_floor h h0⟩

/-- Witness for the amended C3: the row created by a concrete reachable
submission has a non-negative score, and a rejected score leaves the fresh
store unchanged. -/
theorem claimC3_amended_witness :
    0 ≤ (⟨1, "fruit", "A", 7, 0⟩ : Entry).score ∧
    (postRoute emptyDB "fruit" none (JValue.str "abc")).2 = emptyDB := by
  have h7 : parseScore (JValue.num 7) = some 7 := by norm_num [parseScore, toNumber]
  have hmem : (⟨1, "fruit", "A", 7, 0⟩ : Entry) ∈
      (applyReq "" emptyDB (.post "fruit" (some "A") (.num 7))).table := by
    show _ ∈ (postRoute emptyDB "fruit" (some "A") (JValue.num 7)).2.table
    rw [@postRoute_state emptyDB "fruit" (some "A") (JValue.num 7) 7 (by decide) h7]
    decide
  exact ⟨claimC3_amended.1 ""
      (applyReq "" emptyDB (.post "fruit" (some "A") (.num 7)))
      (Reachable.step (.post "fruit" (some "A") (.num 7)) Reachable.init)
      ⟨1, "fruit", "A", 7, 0⟩ hmem,
    claimC3_amended.2.1 emptyDB "fruit" none (JValue.str "abc") (by decide)⟩

/-- Claim C4: the stored display name is the input trimmed and truncated to
12 characters; an absent name, or one empty after trimming, is stored as
"Player"; the sanitized name never exceeds 12 characters; and the created
row (with the sanitized name) appears in a subsequent full-page read. -/
theorem claimC4 :
    sanitizeName none = "Player" ∧
    (∀ s : String, jsTrim s = "" → sanitizeName (some s) = "Player") ∧
    (∀ s : String, jsTrim s ≠ "" → sanitizeName (some s) = sliceTo (jsTrim s) 12) ∧
    (∀ n : Option String, (sanitizeName n).data.length ≤ 12) ∧
    (∀ (db : DB) (g : String) (n : Option String) (v : JValue) (sc : Int),
      g ∈ allowedGames → parseScore v = some sc →
      (postRoute db g n v).2.table =
        db.table ++ [⟨db.nextId, g, sanitizeName n, sc, db.clock⟩] ∧
      toView ⟨db.nextId, g, sanitizeName n, sc, db.clock⟩ ∈
        getLeaderboard (postRoute db g n v).2 g
          (getCount (postRoute db g n v).2 g) 0) := by
  refine ⟨rfl, ?_, ?_, ?_, ?_⟩
  · intro s h
    simp only [sanitizeName]
    by_cases hs : s = ""
    · rw [if_pos hs]
    · rw [if_neg hs, h]
      decide
  · intro s h
    have hs : s ≠ "" := by
      intro he
      subst he
      exact h rfl
    simp only [sanitizeName]
    rw [if_neg hs, if_neg (sliceTo_ne_empty h)]
  · intro n
    cases n with
    | none => decide
    | some s =>
      simp only [sanitizeName]
      by_cases hs : s = ""
      · rw [if_pos hs]; decide
      · rw [if_neg hs]
        by_cases ht : sliceTo (jsTrim s) 12 = ""
        · rw [if_pos ht]; decide
        · rw [if_neg ht]
          simp only [sliceTo]
          exact List.length_take_le _ _
  · intro db g n v sc hg hv
    have hs := @postRoute_state db g n v sc hg hv
    refine ⟨by rw [hs], ?_⟩
    rw [hs]
    refine toView_mem_getLeaderboard ?_
    unfold entriesFor
    rw [show (DB.mk (db.table ++ [⟨db.nextId, g, sanitizeName n, sc, db.clock⟩])
      (db.nextId + 1) (db.clock + 1)).table
      = db.table ++ [⟨db.nextId, g, sanitizeName n, sc, db.clock⟩] from rfl]
    rw [List.filter_append]
    refine List.mem_append_right _ ?_
    simp

/-- Witness for C4 at concrete inputs: whitespace-only and overlong names. -/
theorem claimC4_witness :
    sanitizeName (some "   ") = "Player" ∧
    sanitizeName (some "  Alice Wonderland  ") =
      sliceTo (jsTrim "  Alice Wonderland  ") 12 :=
  ⟨claimC4.2.1 "   " (by decide),
   claimC4.2.2.1 "  Alice Wonderland  " (by decide)⟩

/-- Claim C5: the effective limit of a read defaults to 5 and always lies in
[1, 20] (limit=1000 gives 20 and at most 20 entries; limit=0 or negative
gives at least 1), the effective offset defaults to 0 and is never negative,
and both read routes echo the effective limit and offset in the response. -/
theorem claimC5 :
    (∀ q : Option String, 1 ≤ effLimit q ∧ effLimit q ≤ 20) ∧
    effLimit none = 5 ∧
    effOffset none = 0 ∧
    effLimit (some "1000") = 20 ∧
    effLimit (some "0") = 5 ∧
    effLimit (some "-7") = 1 ∧
    (∀ (db : DB) (g : String) (lq oq : Option String), g ∈ allowedGames →
      getGameRoute db g lq oq =
        .ok g ⟨getLeaderboard db g (effLimit lq) (effOffset oq), getCount db g,
          effLimit lq, effOffset oq⟩) ∧
    (∀ (db : DB) (g gg : String) (lq oq : Option String) (pg : Page),
      getGameRoute db g lq oq = .ok gg pg →
      pg.limit = effLimit lq ∧ pg.offset = effOffset oq ∧
      pg.entries.length ≤ effLimit lq ∧ pg.entries.length ≤ 20) ∧
    (∀ (db : DB) (lq oq : Option String),
      (getAllRoute db lq oq).fruit.limit = effLimit lq ∧
      (getAllRoute db lq oq).flappy.limit = effLimit lq ∧
      (getAllRoute db lq oq).potato.limit = effLimit lq ∧
      (getAllRoute db lq oq).fruit.offset = effOffset oq ∧
      (getAllRoute db lq oq).flappy.offset = effOffset oq ∧
      (getAllRoute db lq oq).potato.offset = effOffset oq) := by
  refine ⟨effLimit_bounds, by decide, by decide, by decide, by decide, by decide,
    ?_, ?_, ?_⟩
  · intro db g lq oq hg
    unfold getGameRoute
    rw [if_pos hg]
  · intro db g gg lq oq pg h
    unfold getGameRoute at h
    by_cases hg : g ∈ allowedGames
    · rw [if_pos hg] at h
      obtain ⟨-, rfl⟩ : gg = g ∧ pg = ⟨getLeaderboard db g (effLimit lq) (effOffset oq),
          getCount db g, effLimit lq, effOffset oq⟩ := by
        cases h
        exact ⟨rfl, rfl⟩
      have hlen : (getLeaderboard db g (effLimit lq) (effOffset oq)).length ≤ effLimit lq := by
        unfold getLeaderboard
        rw [List.length_map]
        exact List.length_take_le _ _
      exact ⟨rfl, rfl, hlen, hlen.trans (effLimit_bounds lq).2⟩
    · rw [if_neg hg] at h
      exact absurd h (by simp)
  · intro db lq oq
    exact ⟨rfl, rfl, rfl, rfl, rfl, rfl⟩

/-- Witness for C5: the clamped route response at limit=1000 on the fresh
store, and the clamp bounds at a concrete query. -/
theorem claimC5_witness :
    getGameRoute emptyDB "fruit" (some "1000") none =
      .ok "fruit" ⟨getLeaderboard emptyDB "fruit" (effLimit (some "1000"))
        (effOffset none), getCount emptyDB "fruit",
        effLimit (some "1000"), effOffset none⟩ ∧
    1 ≤ effLimit (some "-3") :=
  ⟨claimC5.2.2.2.2.2.2.1 emptyDB "fruit" (some "1000") none (by decide),
   (claimC5.1 (some "-3")).1⟩

/-- Claim C6: a successful submission inserts exactly one new row and
responds 201 with the created entry, a freshly computed first page at the
fixed page size 5 and offset 0, and the new total count for that game. -/
theorem claimC6 (db : DB) (g : String) (n : Option String) (v : JValue) (sc : Int)
    (hg : g ∈ allowedGames) (hv : parseScore v = some sc) :
    postRoute db g n v =
      (.created (insertScore db g (sanitizeName n) sc).1
        ⟨getLeaderboard (insertScore db g (sanitizeName n) sc).2 g 5 0,
          getCount (insertScore db g (sanitizeName n) sc).2 g, 5, 0⟩,
        (insertScore db g (sanitizeName n) sc).2) ∧
    (insertScore db g (sanitizeName n) sc).2.table =
      db.table ++ [(insertScore db g (sanitizeName n) sc).1] ∧
    getCount (insertScore db g (sanitizeName n) sc).2 g = getCount db g + 1 ∧
    postStatus (postRoute db g n v).1 = 201 := by
  have hr := @postRoute_result db g n v sc hg hv
  refine ⟨hr, rfl, ?_, by rw [hr]; rfl⟩
  unfold getCount
  rw [entriesFor_insert_same, List.length_append]
  rfl

/-- Witness for C6: the concrete first submission to the fresh store. -/
theorem claimC6_witness :
    postRoute emptyDB "fruit" none (JValue.num 7) =
      (.created (insertScore emptyDB "fruit" (sanitizeName none) 7).1
        ⟨getLeaderboard (insertScore emptyDB "fruit" (sanitizeName none) 7).2 "fruit" 5 0,
          getCount (insertScore emptyDB "fruit" (sanitizeName none) 7).2 "fruit", 5, 0⟩,
        (insertScore emptyDB "fruit" (sanitizeName none) 7).2) ∧
    (insertScore emptyDB "fruit" (sanitizeName none) 7).2.table =
      emptyDB.table ++ [(insertScore emptyDB "fruit" (sanitizeName none) 7).1] ∧
    getCount (insertScore emptyDB "fruit" (sanitizeName none) 7).2 "fruit" =
      getCount emptyDB "fruit" + 1 ∧
    postStatus (postRoute emptyDB "fruit" none (JValue.num 7)).1 = 201 :=
  claimC6 emptyDB "fruit" none (JValue.num 7) 7 (by decide)
    (by norm_num [parseScore, toNumber])

/-- Claim C7: with an admin key configured, a reset with a non-matching key
fails 401 and leaves the store intact; with a matching key (or no key
configured) a reset deletes every row of the named game — or of every
allowed game for "all" — reports the cleared games, and a subsequent read
of a cleared game returns no entries and total 0. -/
theorem claimC7 :
    (∀ (ak : String) (db : DB) (g : String) (k : Option String),
      (g ∈ allowedGames ∨ g = "all") → ak ≠ "" → k ≠ some ak →
      resetRoute ak db g k = (.unauthorized, db) ∧
      resetStatus (resetRoute ak db g k).1 = 401) ∧
    (∀ (ak : String) (db : DB) (g : String) (k : Option String),
      g ∈ allowedGames → (ak = "" ∨ k = some ak) →
      resetRoute ak db g k = (.ok [g], deleteGames db [g]) ∧
      getCount (deleteGames db [g]) g = 0 ∧
      (∀ l o : Nat, getLeaderboard (deleteGames db [g]) g l o = []) ∧
      (∀ g' : String, g' ≠ g →
        entriesFor (deleteGames db [g]) g' = entriesFor db g')) ∧
    (∀ (ak : String) (db : DB) (k : Option String),
      (ak = "" ∨ k = some ak) →
      resetRoute ak db "all" k = (.ok allowedGames, deleteGames db allowedGames) ∧
      (∀ g ∈ allowedGames, getCount (deleteGames db allowedGames) g = 0 ∧
        ∀ l o : Nat, getLeaderboard (deleteGames db allowedGames) g l o = [])) := by
  refine ⟨?_, ?_, ?_⟩
  · intro ak db g k h1 h2 h3
    unfold resetRoute
    rw [if_pos h1, if_pos ⟨h2, h3⟩]
    exact ⟨rfl, rfl⟩
  · intro ak db g k hg hauth0
    have hne : g ≠ "all" := by
      rintro rfl
      exact absurd hg (by decide)
    have hauth : ¬(ak ≠ "" ∧ k ≠ some ak) := by
      rintro ⟨ha, hk⟩
      rcases hauth0 with h | h
      exacts [ha h, hk h]
    have hnil : entriesFor (deleteGames db [g]) g = [] := by
      rw [entriesFor_deleteGames]
      simp
    unfold resetRoute resetTargets
    rw [if_pos (Or.inl hg), if_neg hauth, if_neg hne]
    refine ⟨rfl, getCount_eq_zero hnil, fun l o => getLeaderboard_eq_nil hnil l o, ?_⟩
    intro g' hne'
    rw [entriesFor_deleteGames, if_neg (by simp [hne'])]
  · intro ak db k hauth0
    have hauth : ¬(ak ≠ "" ∧ k ≠ some ak) := by
      rintro ⟨ha, hk⟩
      rcases hauth0 with h | h
      exacts [ha h, hk h]
    unfold resetRoute resetTargets
    rw [if_pos (Or.inr rfl), if_neg hauth, if_pos rfl]
    refine ⟨rfl, ?_⟩
    intro g hg
    have hnil : entriesFor (deleteGames db allowedGames) g = [] := by
      rw [entriesFor_deleteGames, if_pos hg]
    exact ⟨getCount_eq_zero hnil, fun l o => getLeaderboard_eq_nil hnil l o⟩

/-- Witness for C7: a rejected reset with a wrong key, and an authorized
reset clearing the single stored row. -/
theorem claimC7_witness :
    resetRoute "secret" dbOneRow "fruit" (some "wrong") = (.unauthorized, dbOneRow) ∧
    resetRoute "" dbOneRow "fruit" none = (.ok ["fruit"], deleteGames dbOneRow ["fruit"]) ∧
    getCount (deleteGames dbOneRow ["fruit"]) "fruit" = 0 :=
  ⟨(claimC7.1 "secret" dbOneRow "fruit" (some "wrong") (by decide) (by decide)
      (by decide)).1,
   (claimC7.2.1 "" dbOneRow "fruit" none (by decide) (Or.inl rfl)).1,
   (claimC7.2.1 "" dbOneRow "fruit" none (by decide) (Or.inl rfl)).2.1⟩

lemma entriesFor_deleteGamesF_cases (db : DB) (gs : List String) (f : String → Bool)
    (g' : String) :
    entriesFor (deleteGamesF db gs f) g' = entriesFor db g' ∨
    entriesFor (deleteGamesF db gs f) g' = [] := by
  rw [entriesFor_deleteGamesF]
  split
  · exact Or.inr rfl
  · exact Or.inl rfl

/-- Claim C8 counterexample: the claim says a reset (including of "all")
that reports a server error leaves the table as it was, but when the flappy
DELETE fails during a reset of "all", the response is a server error while
the fruit rows are already gone. -/
theorem claimC8_cex :
    (resetRouteF "" failsOnFlappy dbC8 "all" none).1 = .serverError ∧
    (resetRouteF "" failsOnFlappy dbC8 "all" none).2 ≠ dbC8 ∧
    (resetRouteF "" failsOnFlappy dbC8 "all" none).2.table =
      [⟨2, "flappy", "B", 2, 1⟩] := by
  decide

/-- Claim C8 amended: a single-game reset that reports a server error leaves
the store unchanged, and each game's rows are deleted atomically — after any
reset request every game's row list is either untouched or empty — but a
reset of "all" that reports a server error may already have cleared the
games whose deletes succeeded. -/
theorem claimC8_amended :
    (∀ (ak : String) (f : String → Bool) (db : DB) (g : String) (k : Option String),
      g ∈ allowedGames →
      (resetRouteF ak f db g k).1 = .serverError →
      (resetRouteF ak f db g k).2 = db) ∧
    (∀ (ak : String) (f : String → Bool) (db : DB) (g : String) (k : Option String)
      (g' : String),
      entriesFor (resetRouteF ak f db g k).2 g' = entriesFor db g' ∨
      entriesFor (resetRouteF ak f db g k).2 g' = []) := by
  constructor
  · intro ak f db g k hg hres
    have hne : g ≠ "all" := by
      rintro rfl
      exact absurd hg (by decide)
    unfold resetRouteF resetTargets at hres ⊢
    rw [if_pos (Or.inl hg), if_neg hne] at hres ⊢
    by_cases hauth : ak ≠ "" ∧ k ≠ some ak
    · rw [if_pos hauth] at hres
      exact absurd hres (by simp)
    · rw [if_neg hauth] at hres ⊢
      by_cases hany : ([g].any f) = true
      · rw [if_pos hany] at hres ⊢
        have hf : f g = true := by simpa using hany
        show deleteGamesF db [g] f = db
        unfold deleteGamesF
        have hkeep : db.table.filter
            (fun e => !(decide (e.game ∈ [g]) && !(f e.game))) = db.table := by
          rw [List.filter_eq_self]
          intro e he
          by_cases heg : e.game = g
          · simp [heg, hf]
          · simp [heg]
        rw [hkeep]
      · rw [if_neg hany] at hres
        exact absurd hres (by simp)
  · intro ak f db g k g'
    unfold resetRouteF
    by_cases h1 : g ∈ allowedGames ∨ g = "all"
    · rw [if_pos h1]
      by_cases hauth : ak ≠ "" ∧ k ≠ some ak
      · rw [if_pos hauth]
        exact Or.inl rfl
      · rw [if_neg hauth]
        by_cases hany : ((resetTargets g).any f) = true
        · rw [if_pos hany]
          exact entriesFor_deleteGamesF_cases db (resetTargets g) f g'
        · rw [if_neg hany]
          exact entriesFor_deleteGamesF_cases db (resetTargets g) f g'
    · rw [if_neg h1]
      exact Or.inl rfl

/-- Witness for the amended C8: a failing single-game reset leaves the
concrete store unchanged. -/
theorem claimC8_amended_witness :
    (resetRouteF "" failsOnFlappy dbC8 "flappy" none).2 = dbC8 :=
  claimC8_amended.1 "" failsOnFlappy dbC8 "flappy" none (by decide) (by decide)

lemma getLeaderboard_subset (db : DB) (g : String) (l o : Nat) :
    getLeaderboard db g l o ⊆ (entriesFor db g).map toView := by
  intro v hv
  unfold getLeaderboard at hv
  obtain ⟨e, he, rfl⟩ := List.mem_map.mp hv
  refine List.mem_map_of_mem toView ?_
  exact (List.mem_insertionSort rankLE).mp
    (((List.take_sublist _ _).trans (List.drop_sublist _ _)).subset he)

/-- Claim C9: every entry of a page returned by the read and submit routes
is the `{name, score, created_at}` projection (`toView`, exactly those three
fields) of a stored row of that game, and the page carries the total, limit,
and offset fields alongside. -/
theorem claimC9 :
    (∀ (db : DB) (g gg : String) (lq oq : Option String) (pg : Page),
      getGameRoute db g lq oq = .ok gg pg →
      pg.entries ⊆ (entriesFor db g).map toView ∧
      pg.total = getCount db g ∧ pg.limit = effLimit lq ∧
      pg.offset = effOffset oq) ∧
    (∀ (db : DB) (g : String) (n : Option String) (v : JValue) (e : Entry)
      (pg : Page),
      (postRoute db g n v).1 = .created e pg →
      pg.entries ⊆ (entriesFor (postRoute db g n v).2 g).map toView ∧
      pg.total = getCount (postRoute db g n v).2 g ∧
      pg.limit = 5 ∧ pg.offset = 0) := by
  constructor
  · intro db g gg lq oq pg h
    unfold getGameRoute at h
    by_cases hg : g ∈ allowedGames
    · rw [if_pos hg] at h
      obtain ⟨-, rfl⟩ : gg = g ∧ pg =
          ⟨getLeaderboard db g (effLimit lq) (effOffset oq), getCount db g,
            effLimit lq, effOffset oq⟩ := by
        cases h
        exact ⟨rfl, rfl⟩
      exact ⟨getLeaderboard_subset db g _ _, rfl, rfl, rfl⟩
    · rw [if_neg hg] at h
      exact absurd h (by simp)
  · intro db g n v e pg h
    by_cases hg : g ∈ allowedGames
    · cases hp : parseScore v with
      | none =>
        rw [@postRoute_invalid db g n v hg hp] at h
        simp at h
      | some sc =>
        have hr := @postRoute_result db g n v sc hg hp
        rw [hr] at h ⊢
        obtain ⟨-, rfl⟩ : e = (insertScore db g (sanitizeName n) sc).1 ∧ pg =
            ⟨getLeaderboard (insertScore db g (sanitizeName n) sc).2 g 5 0,
              getCount (insertScore db g (sanitizeName n) sc).2 g, 5, 0⟩ := by
          cases h
          exact ⟨rfl, rfl⟩
        exact ⟨getLeaderboard_subset _ g _ _, rfl, rfl, rfl⟩
    · rw [show postRoute db g n v = (.unknownGame, db) from by
        unfold postRoute; rw [if_neg hg]] at h
      simp at h

/-- Witness for C9: the page served for the one-row store projects its
single entry from the stored row. -/
theorem claimC9_witness :
    (⟨[⟨"Ann", 5, 0⟩], 1, 5, 0⟩ : Page).entries ⊆
      (entriesFor dbOneRow "fruit").map toView ∧
    (⟨[⟨"Ann", 5, 0⟩], 1, 5, 0⟩ : Page).total = getCount dbOneRow "fruit" ∧
    (⟨[⟨"Ann", 5, 0⟩], 1, 5, 0⟩ : Page).limit = effLimit none ∧
    (⟨[⟨"Ann", 5, 0⟩], 1, 5, 0⟩ : Page).offset = effOffset none :=
  claimC9.1 dbOneRow "fruit" "fruit" none none ⟨[⟨"Ann", 5, 0⟩], 1, 5, 0⟩
    (by decide)

lemma jsOr_none (d : Int) : jsOr none d = d := rfl

lemma jsOr_zero (d : Int) : jsOr (some 0) d = d := by
  unfold jsOr
  show (if (0 : Int) = 0 then d else 0) = d
  rw [if_pos rfl]

lemma jsOr_some {n : Int} (d : Int) (h : n ≠ 0) : jsOr (some n) d = n := by
  unfold jsOr
  show (if n = 0 then d else n) = n
  rw [if_neg h]

/-- Claim C10: a limit query that is absent, non-numeric, or parses to
exactly 0 yields the default effective limit 5 (not the clamp lower bound
1); only a nonzero parse is clamped into [1, 20]; likewise an offset that is
absent, non-numeric, or 0 yields effective offset 0. -/
theorem claimC10 :
    effLimit none = 5 ∧
    (∀ s : String, parseIntJS (some s) = none → effLimit (some s) = 5) ∧
    (∀ s : String, parseIntJS (some s) = some 0 → effLimit (some s) = 5) ∧
    (∀ (s : String) (n : Int), parseIntJS (some s) = some n → n ≠ 0 →
      effLimit (some s) = (min (max n 1) 20).toNat) ∧
    effOffset none = 0 ∧
    (∀ s : String, parseIntJS (some s) = none → effOffset (some s) = 0) ∧
    (∀ s : String, parseIntJS (some s) = some 0 → effOffset (some s) = 0) ∧
    effLimit (some "abc") = 5 ∧
    effLimit (some "0") = 5 ∧
    effOffset (some "xyz") = 0 ∧
    effOffset (some "0") = 0 := by
  refine ⟨by decide, ?_, ?_, ?_, by decide, ?_, ?_,
    by decide, by decide, by decide, by decide⟩
  · intro s h
    unfold effLimit
    rw [h, jsOr_none]
    decide
  · intro s h
    unfold effLimit
    rw [h, jsOr_zero]
    decide
  · intro s n h hn
    unfold effLimit
    rw [h, jsOr_some 5 hn]
  · intro s h
    unfold effOffset
    rw [h, jsOr_none]
    decide
  · intro s h
    unfold effOffset
    rw [h, jsOr_zero]
    decide

/-- Witness for C10: a junk limit falls back to the default 5 and a
nonzero numeric-prefixed limit is clamped. -/
theorem claimC10_witness :
    effLimit (some "?!") = 5 ∧
    effLimit (some "15x") = (min (max (15 : Int) 1) 20).toNat :=
  ⟨claimC10.2.1 "?!" (by decide),
   claimC10.2.2.2.1 "15x" 15 (by decide) (by decide)⟩
